import Mathlib

/-!
Verification of `src/backup_script.py` (monday.com board backup script).

The script is embedded shallowly: network responses become explicit inputs
(inductive types enumerating the outcomes the Python code distinguishes),
Python dicts become association lists with Python's insertion-order update
semantics, and the `while True` pagination loop becomes a fuel-indexed
recursion where one unit of fuel corresponds to one HTTP request.
-/

namespace Backup

/-- A monday.com board as returned by `get_all_boards`: `{ id name }`. -/
structure Board where
  id : String
  name : String
deriving DecidableEq, Repr

/-- One column value of an item: `column_values { id text }`. -/
structure ColVal where
  id : String
  text : String
deriving DecidableEq, Repr

/-- One item of a board: `items { id name column_values { id text } }`. -/
structure Item where
  id : String
  name : String
  column_values : List ColVal
deriving DecidableEq, Repr

/-- One column of a board: `columns { id title }`. -/
structure Column where
  id : String
  title : String
deriving DecidableEq, Repr

/-- A Python dict with string keys and values, modelled as an association
list in insertion order (Python 3.7+ dicts preserve insertion order). -/
abbrev Dict := List (String × String)

/-- A flattened output row (`row` in `get_board_data`): a Python dict. -/
abbrev Row := Dict

/-- Python dict assignment `d[k] = v`: if `k` is already a key, its value is
updated in place (the key keeps its position); otherwise `(k, v)` is
appended at the end. -/
def dictInsert : Dict → String → String → Dict
  | [], k, v => [(k, v)]
  | p :: rest, k, v =>
    if p.1 = k then (k, v) :: rest else p :: dictInsert rest k v

/-- Python dict lookup `d.get(k)`: the value of the first (unique) entry
with key `k`, or `none`. -/
def dictGet : Dict → String → Option String
  | [], _ => none
  | p :: rest, k => if p.1 = k then some p.2 else dictGet rest k

/-- The keys of a dict, in insertion order (Python `d.keys()`). -/
def dictKeys (d : Dict) : List String := d.map Prod.fst

/-- `column_map.get(col_val['id'], col_val['id'])`: lookup with the raw key
as the default. -/
def mapGet (m : Dict) (k : String) : String := (dictGet m k).getD k

/-- `{c['id']: c['title'] for c in columns_data}` (dict comprehension:
later duplicates of a key overwrite earlier ones). -/
def buildColumnMap (cols : List Column) : Dict :=
  cols.foldl (fun m c => dictInsert m c.id c.title) []

/-- The characters removed by `re.sub(r'[\\/*?:"<>|]', "", board_name)`. -/
def illegalChars : List Char := ['\\', '/', '*', '?', ':', '"', '<', '>', '|']

/-- `re.sub(r'[\\/*?:"<>|]', "", board_name)`: every occurrence of a
character of the class is replaced by the empty string, i.e. removed. -/
def sanitize (name : String) : String :=
  ⟨name.data.filter (fun c => decide (c ∉ illegalChars))⟩

/-! ### The Board Lister: `get_all_boards` (lines 17-28)

The `try` block wraps the POST, `raise_for_status()` and the access
`response.json()['data']['boards']`, but the `except` clause catches only
`requests.exceptions.RequestException`.  The outcome of the single request
is one of: a request error (network failure or non-2xx status raised by
`raise_for_status`), a 2xx response whose JSON body carries a GraphQL
error payload instead of a usable `data.boards` value (subscripting then
raises `KeyError`/`TypeError`, which is not a `RequestException`), or a
usable boards list. -/

/-- The possible outcomes of the board-list request. -/
inductive BoardsResult where
  | reqError : BoardsResult
  | apiErrorPayload : BoardsResult
  | ok : List Board → BoardsResult
deriving DecidableEq

/-- `get_all_boards` (lines 17-28). `Except.error` models an exception
propagating out of the function uncaught. -/
def get_all_boards : BoardsResult → Except String (List Board)
  | .reqError => .ok []
  | .apiErrorPayload => .error "KeyError"
  | .ok boards => .ok boards

/-- Whether a call outcome is an uncaught exception. -/
def raises : Except String (List Board) → Bool
  | .error _ => true
  | .ok _ => false

/-! ### The Board Exporter: `get_board_data` (lines 30-87) -/

/-- Outcome of the columns request (lines 32-40).  The `except Exception`
clause catches every exception, so a request error and a 200 response
carrying an API error payload (whose `['data']` subscripting raises) both
lead to `return None`. -/
inductive ColumnsResult where
  | reqError : ColumnsResult
  | apiError : ColumnsResult
  | ok : List Column → ColumnsResult
deriving DecidableEq

/-- Outcome of one items-page request (lines 62-75): a
`requests.exceptions.RequestException`, a 200 body containing an
`"errors"` key, or a page carrying `items` and a `cursor`
(`none` models JSON `null`). -/
inductive FetchResult where
  | reqError : FetchResult
  | apiError : FetchResult
  | page : List Item → Option String → FetchResult
deriving DecidableEq

/-- The items of a page response (`[]` for error outcomes). -/
def itemsOf : FetchResult → List Item
  | .page items _ => items
  | _ => []

/-- Whether the `while True` loop of lines 44-78 starts another iteration
after this response: only a page with non-empty `items` and a non-null
`cursor` does; everything else breaks or returns. -/
def continues : FetchResult → Bool
  | .page items (some _) => !items.isEmpty
  | _ => false

/-- The pagination loop of lines 44-78.  `fetch p` is the response to the
request for page `p`; one unit of `fuel` pays for one request.  The outer
`Option` is `none` when the loop has not finished within `fuel` requests;
`some none` models `return None` (the `except RequestException` branch,
line 78); `some (some acc)` models falling through to line 80 with
`items_data = acc` after a `break`. -/
def paginate (fetch : Nat → FetchResult) : Nat → Nat → List Item → Option (Option (List Item))
  | 0, _, _ => none
  | fuel + 1, page, acc =>
    match fetch page with
    | .reqError => some none
    | .apiError => some (some acc)
    | .page items cursor =>
      if items.isEmpty then some (some acc)
      else
        match cursor with
        | none => some (some (acc ++ items))
        | some _ => paginate fetch fuel (page + 1) (acc ++ items)

/-- The items carried by the `n` consecutive page responses starting at
page `page`, concatenated in order (used to state what the pagination
loop accumulates). -/
def pageItems (fetch : Nat → FetchResult) (page : Nat) : Nat → List Item
  | 0 => []
  | n + 1 => itemsOf (fetch page) ++ pageItems fetch (page + 1) n

/-- Lines 82-85: build one row for one item, seeded with
`{'Item ID': ..., 'Item Name': ...}` and then one dict assignment per
column value, keyed by `column_map.get(col_val['id'], col_val['id'])`. -/
def flattenItem (column_map : Dict) (item : Item) : Row
  := item.column_values.foldl
      (fun row cv => dictInsert row (mapGet column_map cv.id) cv.text)
      [("Item ID", item.id), ("Item Name", item.name)]

/-- Lines 80-87: `processed_rows`, one row per item in order. -/
def processRows (column_map : Dict) (items : List Item) : List Row :=
  items.map (flattenItem column_map)

/-- `get_board_data` (lines 30-87), with the board's network environment
passed explicitly: the columns-request outcome, the page responses, and
request fuel for the loop.  The outer `Option` is `none` only when the
pagination loop exceeds `fuel` requests; the inner `Option (List Row)` is
the Python return value (`none` = `None`). -/
def get_board_data (colResp : ColumnsResult) (fetch : Nat → FetchResult)
    (fuel : Nat) : Option (Option (List Row)) :=
  match colResp with
  | .reqError => some none
  | .apiError => some none
  | .ok cols =>
    match paginate fetch fuel 1 [] with
    | none => none
    | some none => some none
    | some (some items) => some (some (processRows (buildColumnMap cols) items))

/-! ### CSV serialization (lines 128-129)

`pd.DataFrame(board_data)` on a list of dicts takes as columns the union
of the dicts' keys in order of first occurrence; `df.to_csv(index=False,
encoding='utf-8-sig')` writes the header line then one line per row, a
missing key rendering as an empty cell.  Cell text is modelled verbatim
(no value in the claims needs CSV quoting, and the BOM of `utf-8-sig` is
an encoding prefix, not part of the lines). -/

/-- The CSV column list: union of row keys in first-occurrence order. -/
def csvHeader (rows : List Row) : List String :=
  rows.foldl
    (fun hdr row =>
      (dictKeys row).foldl (fun h k => if h.contains k then h else h ++ [k]) hdr)
    []

/-- One cell: the row's value under the column key, empty when absent. -/
def csvCell (row : Row) (k : String) : String := (dictGet row k).getD ""

/-- One CSV data line for a row under a header. -/
def csvLine (hdr : List String) (row : Row) : String :=
  String.intercalate "," (hdr.map (csvCell row))

/-- All lines of the produced CSV file: header line, then one line per
row. -/
def csvLines (rows : List Row) : List String :=
  String.intercalate "," (csvHeader rows) :: rows.map (csvLine (csvHeader rows))

/-! ### Archiver and orchestrator (lines 89-134) -/

/-- Outcome of the Drive upload call `service.files().create(...).execute()`
(line 97), which is the only statement of `upload_to_gdrive`'s `try`
block that contacts the remote service. -/
inductive UploadOutcome where
  | ok : UploadOutcome
  | err : UploadOutcome
deriving DecidableEq

/-- Observable effects of one iteration of the board loop
(lines 120-134). -/
structure BoardOutcome where
  csvWritten : Bool
  uploadAttempted : Bool
  uploadFailureLogged : Bool
  fileDeleted : Bool
  proceeded : Bool
deriving DecidableEq, Repr

/-- One iteration of `main`'s board loop (lines 124-134) for a board whose
`get_board_data` result is `board_data`: `if board_data:` is Python
truthiness, false for `None` and for the empty list; in the truthy branch
the CSV is written, `upload_to_gdrive` is called (its `except Exception`
clause logs any upload failure and returns normally, lines 96-100), and
`os.remove` runs unconditionally afterwards (line 132). -/
def processBoard (board_data : Option (List Row)) (upload : UploadOutcome) :
    BoardOutcome :=
  match board_data with
  | none => ⟨false, false, false, false, true⟩
  | some rows =>
    if rows.isEmpty then ⟨false, false, false, false, true⟩
    else ⟨true, true, upload = UploadOutcome.err, true, true⟩

/-- Whether the iteration invokes the Archiver (writes, uploads, deletes):
exactly the truthy branch of `if board_data:` (line 125). -/
def archiverInvoked (board_data : Option (List Row)) : Bool :=
  match board_data with
  | none => false
  | some rows => !rows.isEmpty

/-- The whole board loop of `main` (lines 120-134): boards are processed
strictly in order, each with its own exporter result and upload outcome;
no iteration ends the loop. -/
def runBoards (boards : List (Option (List Row) × UploadOutcome)) :
    List BoardOutcome :=
  boards.map (fun b => processBoard b.1 b.2)

/-! ### Concrete test data

The end-to-end scenario of the spec (board "Sales/Q1") and small fetch
environments exercising the failure branches. -/

/-- Scenario item `{id: 1, name: "Deal A", columns: [{id: "status", text: "Won"}]}`. -/
def scenarioItem1 : Item := ⟨"1", "Deal A", [⟨"status", "Won"⟩]⟩

/-- Scenario item `{id: 2, name: "Deal B", columns: []}`. -/
def scenarioItem2 : Item := ⟨"2", "Deal B", []⟩

/-- Scenario column map `{"status": "Status"}` as a columns response. -/
def scenarioCols : List Column := [⟨"status", "Status"⟩]

/-- The flattened row of `scenarioItem1`. -/
def scenarioRow1 : Row := [("Item ID", "1"), ("Item Name", "Deal A"), ("Status", "Won")]

/-- The flattened row of `scenarioItem2`. -/
def scenarioRow2 : Row := [("Item ID", "2"), ("Item Name", "Deal B")]

/-- Page responses for the scenario board: one page with both items and a
null cursor. -/
def scenarioFetch : Nat → FetchResult :=
  fun p => if p = 1 then FetchResult.page [scenarioItem1, scenarioItem2] none
           else FetchResult.page [] none

/-- Page responses where page 1 succeeds with a continuation cursor and
page 2 is a 200 response carrying an API error payload. -/
def errorPageFetch : Nat → FetchResult :=
  fun p => if p = 1 then FetchResult.page [scenarioItem1] (some "c1")
           else FetchResult.apiError

/-- Page responses where page 1 succeeds with a continuation cursor and
page 2 fails with a request error. -/
def reqErrorFetch : Nat → FetchResult :=
  fun p => if p = 1 then FetchResult.page [scenarioItem1] (some "c1")
           else FetchResult.reqError

/-- Page responses for a board with zero items. -/
def emptyFetch : Nat → FetchResult := fun _ => FetchResult.page [] none

/-- A column map sending two distinct column ids to the same title. -/
def dupTitleMap : Dict := [("a", "T"), ("b", "T")]

/-- An item with two column values whose ids collide under `dupTitleMap`. -/
def dupTitleItem : Item := ⟨"7", "I", [⟨"a", "1"⟩, ⟨"b", "2"⟩]⟩

/-- An item with a column value whose id is absent from `scenarioCols`. -/
def missingColItem : Item := ⟨"9", "X", [⟨"unknownCol", "val"⟩]⟩

/-! ### Lemmas about the dict model -/

/-- Lookup after a dict assignment: the assigned key reads back the new
value, every other key is unaffected. -/
theorem dictGet_dictInsert (d : Dict) (k v k' : String) :
    dictGet (dictInsert d k v) k' = if k' = k then some v else dictGet d k' := by
  induction d with
  | nil =>
    by_cases h : k' = k
    · simp [dictInsert, dictGet, h]
    · have h2 : ¬ k = k' := fun e => h e.symm
      simp [dictInsert, dictGet, h, h2]
  | cons p rest ih =>
    by_cases hp : p.1 = k
    · by_cases h : k' = k
      · simp [dictInsert, hp, dictGet, h]
      · have h2 : ¬ k = k' := fun e => h e.symm
        have hpk : ¬ p.1 = k' := by
          rw [hp]; exact h2
        simp [dictInsert, hp, dictGet, h, h2, hpk]
    · by_cases hp' : p.1 = k'
      · have hkk : ¬ k' = k := fun e => hp (hp'.trans e)
        simp [dictInsert, hp, dictGet, hp', hkk]
      · simp [dictInsert, hp, dictGet, hp', ih]

/-- A dict assignment either leaves the key list unchanged (update in
place) or appends the new key at the end. -/
theorem dictKeys_dictInsert (d : Dict) (k v : String) :
    dictKeys (dictInsert d k v) = dictKeys d ∨
    dictKeys (dictInsert d k v) = dictKeys d ++ [k] := by
  induction d with
  | nil => right; rfl
  | cons p rest ih =>
    by_cases hp : p.1 = k
    · left; simp [dictInsert, hp, dictKeys]
    · rcases ih with h | h
      · left; simp [dictInsert, hp, dictKeys]
        simpa [dictKeys] using h
      · right; simp [dictInsert, hp, dictKeys]
        simpa [dictKeys] using h

/-- Every key of `dictInsert d k v` is `k` or a key of `d`. -/
theorem mem_dictKeys_dictInsert (d : Dict) (k v x : String)
    (hx : x ∈ dictKeys (dictInsert d k v)) : x = k ∨ x ∈ dictKeys d := by
  rcases dictKeys_dictInsert d k v with h | h
  · right; rwa [h] at hx
  · rw [h] at hx
    rcases List.mem_append.1 hx with h' | h'
    · right; exact h'
    · left; simpa using h'

/-- Dict assignment preserves distinctness of keys. -/
theorem nodup_dictKeys_dictInsert (d : Dict) (k v : String)
    (hd : (dictKeys d).Nodup) : (dictKeys (dictInsert d k v)).Nodup := by
  induction d with
  | nil => simp [dictInsert, dictKeys]
  | cons p rest ih =>
    rw [dictKeys, List.map_cons, List.nodup_cons] at hd
    by_cases hp : p.1 = k
    · have : dictKeys (dictInsert (p :: rest) k v) = k :: dictKeys rest := by
        simp [dictInsert, hp, dictKeys]
      rw [this, List.nodup_cons]
      exact ⟨by rw [← hp]; exact hd.1, hd.2⟩
    · have : dictKeys (dictInsert (p :: rest) k v)
          = p.1 :: dictKeys (dictInsert rest k v) := by
        simp [dictInsert, hp, dictKeys]
      rw [this, List.nodup_cons]
      refine ⟨fun hmem => ?_, ih hd.2⟩
      rcases mem_dictKeys_dictInsert rest k v p.1 hmem with h | h
      · exact hp h
      · exact hd.1 h

/-- Dict assignment never shrinks the dict. -/
theorem length_le_dictInsert (d : Dict) (k v : String) :
    d.length ≤ (dictInsert d k v).length := by
  induction d with
  | nil => simp [dictInsert]
  | cons p rest ih =>
    by_cases hp : p.1 = k
    · simp [dictInsert, hp]
    · simpa [dictInsert, hp] using ih

/-- The first `n` keys of a dict (for `n` within its size) are unchanged
by an assignment: updates are in place and fresh keys go to the end. -/
theorem take_dictKeys_dictInsert (d : Dict) (k v : String) (n : Nat)
    (hn : n ≤ d.length) :
    (dictKeys (dictInsert d k v)).take n = (dictKeys d).take n := by
  rcases dictKeys_dictInsert d k v with h | h
  · rw [h]
  · rw [h, List.take_append_of_le_length]
    simpa [dictKeys] using hn

/-- Folding dict assignments over column values leaves the first `n` keys
of the seed row unchanged. -/
theorem take_dictKeys_foldl_insert (m : Dict) (cvs : List ColVal) :
    ∀ (row : Row) (n : Nat), n ≤ row.length →
    (dictKeys (cvs.foldl (fun r c => dictInsert r (mapGet m c.id) c.text) row)).take n
      = (dictKeys row).take n := by
  induction cvs with
  | nil => intro row n _; rfl
  | cons cv rest ih =>
    intro row n hn
    have h1 : n ≤ (dictInsert row (mapGet m cv.id) cv.text).length :=
      le_trans hn (length_le_dictInsert row _ _)
    rw [List.foldl_cons, ih _ n h1,
      take_dictKeys_dictInsert row (mapGet m cv.id) cv.text n hn]

/-- If no column value of `cvs` resolves to label `k`, folding their
assignments does not touch the row's entry at `k`. -/
theorem foldl_insert_get_of_label_ne (m : Dict) (cvs : List ColVal) :
    ∀ (row : Row) (k : String), (∀ cv ∈ cvs, mapGet m cv.id ≠ k) →
    dictGet (cvs.foldl (fun r c => dictInsert r (mapGet m c.id) c.text) row) k
      = dictGet row k := by
  induction cvs with
  | nil => intro row k _; rfl
  | cons cv rest ih =>
    intro row k h
    have hne : mapGet m cv.id ≠ k := h cv (List.mem_cons_self cv rest)
    rw [List.foldl_cons, ih _ k (fun c hc => h c (List.mem_cons_of_mem cv hc)),
      dictGet_dictInsert, if_neg (Ne.symm hne)]

/-- After folding the assignments of `l₁ ++ cv :: l₂`, the entry at
`cv`'s resolved label holds `cv.text`, provided no later column value
(`l₂`) resolves to the same label. -/
theorem foldl_insert_get_last (m : Dict) (l₁ : List ColVal) (cv : ColVal)
    (l₂ : List ColVal) (row : Row) (k : String) (hk : mapGet m cv.id = k)
    (hlast : ∀ cv' ∈ l₂, mapGet m cv'.id ≠ k) :
    dictGet ((l₁ ++ cv :: l₂).foldl
        (fun r c => dictInsert r (mapGet m c.id) c.text) row) k
      = some cv.text := by
  rw [List.foldl_append, List.foldl_cons, hk,
    foldl_insert_get_of_label_ne m l₂ _ k hlast, dictGet_dictInsert, if_pos rfl]

/-! ### Lemmas about the pagination loop -/

/-- If the first `k` page responses continue the loop and response `k + 1`
breaks it by any means other than a request error (an API error payload,
an empty item list, or a null cursor), the loop finishes within `k + 1`
requests — any fuel above `k` suffices — and falls through to flattening
with exactly the items of those `k + 1` pages appended to the
accumulator. -/
theorem paginate_breaks (fetch : Nat → FetchResult) :
    ∀ (k fuel page : Nat) (acc : List Item), k < fuel →
    (∀ j, j < k → continues (fetch (page + j)) = true) →
    continues (fetch (page + k)) = false →
    fetch (page + k) ≠ FetchResult.reqError →
    paginate fetch fuel page acc
      = some (some (acc ++ pageItems fetch page (k + 1))) := by
  intro k
  induction k with
  | zero =>
    intro fuel page acc hfuel _ hstop hne
    obtain ⟨f, rfl⟩ : ∃ f, fuel = f + 1 := ⟨fuel - 1, by omega⟩
    rw [Nat.add_zero] at hstop hne
    cases hf : fetch page with
    | reqError => exact absurd hf hne
    | apiError => simp [paginate, hf, pageItems, itemsOf]
    | page items cursor =>
      cases cursor with
      | none =>
        by_cases he : items.isEmpty
        · have : items = [] := by simpa using he
          simp [paginate, hf, he, pageItems, itemsOf, this]
        · simp [paginate, hf, he, pageItems, itemsOf]
      | some c =>
        rw [hf] at hstop
        simp [continues] at hstop
        simp [paginate, hf, hstop, pageItems, itemsOf]
  | succ k ih =>
    intro fuel page acc hfuel hcont hstop hne
    obtain ⟨f, rfl⟩ : ∃ f, fuel = f + 1 := ⟨fuel - 1, by omega⟩
    have h0 : continues (fetch page) = true := by
      simpa using hcont 0 (by omega)
    cases hf : fetch page with
    | reqError => rw [hf] at h0; simp [continues] at h0
    | apiError => rw [hf] at h0; simp [continues] at h0
    | page items cursor =>
      rw [hf] at h0
      cases cursor with
      | none => simp [continues] at h0
      | some c =>
        simp [continues] at h0
        have hie : items.isEmpty = false := by simpa using h0
        have step : paginate fetch (f + 1) page acc
            = paginate fetch f (page + 1) (acc ++ items) := by
          simp [paginate, hf, hie]
        rw [step, ih f (page + 1) (acc ++ items) (by omega)
            (fun j hj => by
              have := hcont (j + 1) (by omega)
              rwa [show page + (j + 1) = page + 1 + j from by omega] at this)
            (by rwa [show page + 1 + k = page + (k + 1) from by omega])
            (by rwa [show page + 1 + k = page + (k + 1) from by omega])]
        simp [pageItems, hf, itemsOf, List.append_assoc]

/-- If the first `k` page responses continue the loop and request `k + 1`
fails with a request error, the loop returns `None`, discarding the
accumulated items. -/
theorem paginate_reqError_of (fetch : Nat → FetchResult) :
    ∀ (k fuel page : Nat) (acc : List Item), k < fuel →
    (∀ j, j < k → continues (fetch (page + j)) = true) →
    fetch (page + k) = FetchResult.reqError →
    paginate fetch fuel page acc = some none := by
  intro k
  induction k with
  | zero =>
    intro fuel page acc hfuel _ herr
    obtain ⟨f, rfl⟩ : ∃ f, fuel = f + 1 := ⟨fuel - 1, by omega⟩
    rw [Nat.add_zero] at herr
    simp [paginate, herr]
  | succ k ih =>
    intro fuel page acc hfuel hcont herr
    obtain ⟨f, rfl⟩ : ∃ f, fuel = f + 1 := ⟨fuel - 1, by omega⟩
    have h0 : continues (fetch page) = true := by
      simpa using hcont 0 (by omega)
    cases hf : fetch page with
    | reqError => rw [hf] at h0; simp [continues] at h0
    | apiError => rw [hf] at h0; simp [continues] at h0
    | page items cursor =>
      rw [hf] at h0
      cases cursor with
      | none => simp [continues] at h0
      | some c =>
        simp [continues] at h0
        have hie : items.isEmpty = false := by simpa using h0
        have step : paginate fetch (f + 1) page acc
            = paginate fetch f (page + 1) (acc ++ items) := by
          simp [paginate, hf, hie]
        rw [step]
        exact ih f (page + 1) (acc ++ items) (by omega)
          (fun j hj => by
            have := hcont (j + 1) (by omega)
            rwa [show page + (j + 1) = page + 1 + j from by omega] at this)
          (by rwa [show page + 1 + k = page + (k + 1) from by omega])

/-- `pageItems` with one more page appends that page's items at the end. -/
theorem pageItems_succ_right (fetch : Nat → FetchResult) :
    ∀ (n page : Nat),
    pageItems fetch page (n + 1) = pageItems fetch page n ++ itemsOf (fetch (page + n)) := by
  intro n
  induction n with
  | zero => intro page; simp [pageItems]
  | succ n ih =>
    intro page
    calc pageItems fetch page (n + 2)
        = itemsOf (fetch page) ++ pageItems fetch (page + 1) (n + 1) := rfl
      _ = itemsOf (fetch page)
            ++ (pageItems fetch (page + 1) n ++ itemsOf (fetch (page + 1 + n))) := by
          rw [ih]
      _ = pageItems fetch page (n + 1) ++ itemsOf (fetch (page + (n + 1))) := by
          rw [show page + 1 + n = page + (n + 1) from by omega, pageItems,
            List.append_assoc]

/-- A key holding a value is among the dict's keys. -/
theorem mem_dictKeys_of_dictGet_some (d : Dict) (k v : String)
    (h : dictGet d k = some v) : k ∈ dictKeys d := by
  induction d with
  | nil => simp [dictGet] at h
  | cons p rest ih =>
    by_cases hp : p.1 = k
    · rw [dictKeys, List.map_cons, hp]
      exact List.mem_cons_self k _
    · rw [dictGet, if_neg hp] at h
      rw [dictKeys, List.map_cons]
      exact List.mem_cons_of_mem p.1 (ih h)

/-- Folding dict assignments preserves distinctness of the row's keys. -/
theorem nodup_dictKeys_foldl_insert (m : Dict) (cvs : List ColVal) :
    ∀ (row : Row), (dictKeys row).Nodup →
    (dictKeys (cvs.foldl (fun r c => dictInsert r (mapGet m c.id) c.text) row)).Nodup := by
  induction cvs with
  | nil => intro row h; exact h
  | cons cv rest ih =>
    intro row h
    rw [List.foldl_cons]
    exact ih _ (nodup_dictKeys_dictInsert row (mapGet m cv.id) cv.text h)

/-! ### Claim theorems -/

/-- C4: flattening builds one row per item, seeded with "Item ID" and
"Item Name"; the CSV header lists the keys in first-occurrence order and
a row missing a key renders as an empty cell; and the end-to-end
"Sales/Q1" scenario produces header `Item ID,Item Name,Status`, rows
`1,Deal A,Won` and `2,Deal B,`, and filename `SalesQ1.csv`. -/
theorem flatten_csv_scenario :
    (∀ (m : Dict) (items : List Item), (processRows m items).length = items.length) ∧
    (∀ (m : Dict) (item : Item),
      (dictKeys (flattenItem m item)).take 2 = ["Item ID", "Item Name"]) ∧
    get_board_data (ColumnsResult.ok scenarioCols) scenarioFetch 1
      = some (some [scenarioRow1, scenarioRow2]) ∧
    csvHeader [scenarioRow1, scenarioRow2] = ["Item ID", "Item Name", "Status"] ∧
    csvLines [scenarioRow1, scenarioRow2]
      = ["Item ID,Item Name,Status", "1,Deal A,Won", "2,Deal B,"] ∧
    sanitize "Sales/Q1" ++ ".csv" = "SalesQ1.csv" := by
  refine ⟨?_, ?_, ?_, ?_, ?_, ?_⟩
  · intro m items; simp [processRows]
  · intro m item
    have h := take_dictKeys_foldl_insert m item.column_values
      [("Item ID", item.id), ("Item Name", item.name)] 2 (by simp)
    rw [flattenItem, h]
    rfl
  · rfl
  · rfl
  · rfl
  · rfl

/-- C1 counterexample: with the columns request succeeding, page 1 of the
items requests returning an item with a continuation cursor, and page 2
returning a 200 response carrying an API error payload, `get_board_data`
does not return `None` — it returns the rows of page 1 — and the Archiver
is invoked for the board. -/
theorem itemsPage_apiError_not_fatal_cex :
    get_board_data (ColumnsResult.ok scenarioCols) errorPageFetch 2
      = some (some [scenarioRow1]) ∧
    (some [scenarioRow1] ≠ (none : Option (List Row))) ∧
    archiverInvoked (some [scenarioRow1]) = true :=
  ⟨rfl, by simp, rfl⟩

/-- C1 (amended): an API error payload in the columns response is fatal
for the board — `get_board_data` returns `None` and the Archiver is not
invoked — while an API error payload in an items-page response only stops
pagination: the items of that response are never parsed and the rows
flattened from the previously accumulated pages are returned. -/
theorem apiError_columns_fatal_itemsPage_breaks (cols : List Column)
    (fetch : Nat → FetchResult) (fuel k : Nat) (hk : k < fuel)
    (hcont : ∀ j, j < k → continues (fetch (1 + j)) = true)
    (happ : fetch (1 + k) = FetchResult.apiError) :
    get_board_data ColumnsResult.apiError fetch fuel = some none ∧
    archiverInvoked none = false ∧
    get_board_data (ColumnsResult.ok cols) fetch fuel
      = some (some (processRows (buildColumnMap cols) (pageItems fetch 1 k))) := by
  refine ⟨rfl, rfl, ?_⟩
  have hb := paginate_breaks fetch k fuel 1 [] hk hcont
    (by rw [happ]; rfl) (by rw [happ]; simp)
  rw [pageItems_succ_right fetch k 1, happ] at hb
  simp [itemsOf] at hb
  simp only [get_board_data]
  rw [hb]

/-- C1 (amended) witness at the concrete error environment. -/
theorem apiError_columns_fatal_itemsPage_breaks_witness :
    get_board_data ColumnsResult.apiError errorPageFetch 2 = some none ∧
    archiverInvoked none = false ∧
    get_board_data (ColumnsResult.ok scenarioCols) errorPageFetch 2
      = some (some (processRows (buildColumnMap scenarioCols)
          (pageItems errorPageFetch 1 1))) :=
  apiError_columns_fatal_itemsPage_breaks scenarioCols errorPageFetch 2 1 (by omega)
    (fun j hj => by
      have hj0 : j = 0 := by omega
      subst hj0
      rfl)
    rfl

/-- C2: if pages `1..k` continue the loop and page `k + 1` has an empty
item list or a null cursor, the pagination loop finishes within `k + 1`
requests (any fuel above `k` gives the same result, so the loop never
runs forever), it accumulates exactly the items of those pages, and the
items of the final page are not dropped. -/
theorem pagination_terminating (fetch : Nat → FetchResult) (k fuel : Nat)
    (hk : k < fuel)
    (hcont : ∀ j, j < k → continues (fetch (1 + j)) = true)
    (items : List Item) (cursor : Option String)
    (hpage : fetch (1 + k) = FetchResult.page items cursor)
    (hstop : items = [] ∨ cursor = none) :
    paginate fetch fuel 1 [] = some (some (pageItems fetch 1 (k + 1))) ∧
    ∀ x ∈ items, x ∈ pageItems fetch 1 (k + 1) := by
  have hcstop : continues (fetch (1 + k)) = false := by
    rw [hpage]
    rcases hstop with h | h
    · subst h; cases cursor <;> rfl
    · subst h; rfl
  have hne : fetch (1 + k) ≠ FetchResult.reqError := by rw [hpage]; simp
  have hb := paginate_breaks fetch k fuel 1 [] hk hcont hcstop hne
  rw [List.nil_append] at hb
  refine ⟨hb, ?_⟩
  intro x hx
  rw [pageItems_succ_right fetch k 1, hpage]
  exact List.mem_append.2 (Or.inr (by simpa [itemsOf] using hx))

/-- C2 witness: the scenario fetch stops right after its single page and
keeps that page's items. -/
theorem pagination_terminating_witness :
    paginate scenarioFetch 1 1 [] = some (some (pageItems scenarioFetch 1 1)) ∧
    scenarioItem1 ∈ pageItems scenarioFetch 1 1 :=
  ⟨(pagination_terminating scenarioFetch 0 1 (by omega)
      (fun j hj => absurd hj (by omega))
      [scenarioItem1, scenarioItem2] none rfl (Or.inr rfl)).1,
   (pagination_terminating scenarioFetch 0 1 (by omega)
      (fun j hj => absurd hj (by omega))
      [scenarioItem1, scenarioItem2] none rfl (Or.inr rfl)).2
     scenarioItem1 (by simp)⟩

/-- C3 counterexample: a zero-item board yields `Some []`, which is
distinct from `None`, yet the Archiver is not invoked — `if board_data:`
is false for the empty list. -/
theorem zero_item_board_cex :
    get_board_data (ColumnsResult.ok scenarioCols) emptyFetch 1
      = some (some ([] : List Row)) ∧
    (some ([] : List Row) ≠ (none : Option (List Row))) ∧
    archiverInvoked (some ([] : List Row)) = false :=
  ⟨rfl, by simp, rfl⟩

/-- C3 (amended): the Exporter applied to a board with zero items returns
the empty sequence, distinct from the null failure sentinel, but the
Orchestrator invokes the Archiver only for a result that is non-null and
non-empty — so a zero-item board gets no CSV written or uploaded. -/
theorem zero_item_board_amended (cols : List Column) (fetch : Nat → FetchResult)
    (fuel : Nat) (h : paginate fetch fuel 1 [] = some (some ([] : List Item))) :
    get_board_data (ColumnsResult.ok cols) fetch fuel = some (some ([] : List Row)) ∧
    (some ([] : List Row) ≠ (none : Option (List Row))) ∧
    archiverInvoked (some ([] : List Row)) = false ∧
    (∀ rows : List Row, archiverInvoked (some rows) = !rows.isEmpty) := by
  refine ⟨?_, by simp, rfl, fun rows => rfl⟩
  simp only [get_board_data]
  rw [h]
  rfl

/-- C3 (amended) witness at the zero-item environment. -/
theorem zero_item_board_amended_witness :
    get_board_data (ColumnsResult.ok scenarioCols) emptyFetch 1
      = some (some ([] : List Row)) ∧
    archiverInvoked (some ([] : List Row)) = false :=
  ⟨(zero_item_board_amended scenarioCols emptyFetch 1 rfl).1,
   (zero_item_board_amended scenarioCols emptyFetch 1 rfl).2.2.1⟩

/-- C5: a request error on any items page makes `get_board_data` return
`None` — the items accumulated from the earlier pages are discarded, and
the Archiver is not invoked. -/
theorem midpagination_reqError_null (cols : List Column)
    (fetch : Nat → FetchResult) (fuel k : Nat) (hk : k < fuel)
    (hcont : ∀ j, j < k → continues (fetch (1 + j)) = true)
    (herr : fetch (1 + k) = FetchResult.reqError) :
    get_board_data (ColumnsResult.ok cols) fetch fuel = some none ∧
    archiverInvoked none = false := by
  refine ⟨?_, rfl⟩
  have hp := paginate_reqError_of fetch k fuel 1 [] hk hcont herr
  simp only [get_board_data]
  rw [hp]

/-- C5 witness: one successful page with a cursor, then a request
error. -/
theorem midpagination_reqError_null_witness :
    get_board_data (ColumnsResult.ok scenarioCols) reqErrorFetch 2 = some none ∧
    archiverInvoked none = false :=
  midpagination_reqError_null scenarioCols reqErrorFetch 2 1 (by omega)
    (fun j hj => by
      have hj0 : j = 0 := by omega
      subst hj0
      rfl)
    rfl

/-- C6 counterexample: an API error payload in an otherwise-200 response
to the board-list request is not converted to an empty list — the except
clause catches only request errors, so the subscripting failure
propagates out of `get_all_boards` uncaught. -/
theorem lister_apiError_raises_cex :
    raises (get_all_boards BoardsResult.apiErrorPayload) = true ∧
    get_all_boards BoardsResult.apiErrorPayload ≠ Except.ok ([] : List Board) :=
  ⟨rfl, by simp [get_all_boards]⟩

/-- C6 (amended): the Board Lister fails soft (empty list) on request
errors but raises on an embedded API error payload; the columns fetch
converts both request errors and API error payloads to `None`; a failed
upload still lets the board's iteration run to completion; and the loop
visits every board. -/
theorem remote_failure_policy_amended (fetch : Nat → FetchResult) (fuel : Nat) :
    get_all_boards BoardsResult.reqError = Except.ok ([] : List Board) ∧
    raises (get_all_boards BoardsResult.apiErrorPayload) = true ∧
    get_board_data ColumnsResult.reqError fetch fuel = some none ∧
    get_board_data ColumnsResult.apiError fetch fuel = some none ∧
    (∀ rows : List Row, (processBoard (some rows) UploadOutcome.err).proceeded = true) ∧
    (∀ boards, (runBoards boards).length = boards.length) := by
  refine ⟨rfl, rfl, rfl, rfl, fun rows => ?_, fun boards => by simp [runBoards]⟩
  cases rows <;> rfl

/-- C7: when the upload call fails for a board with rows, the failure is
logged, the local CSV file is still deleted, the board's iteration runs
to completion, and the loop reaches every board. -/
theorem upload_failure_soft (rows : List Row) (h : rows ≠ []) :
    (processBoard (some rows) UploadOutcome.err).csvWritten = true ∧
    (processBoard (some rows) UploadOutcome.err).uploadFailureLogged = true ∧
    (processBoard (some rows) UploadOutcome.err).fileDeleted = true ∧
    (processBoard (some rows) UploadOutcome.err).proceeded = true ∧
    (∀ boards, (runBoards boards).length = boards.length) := by
  have hie : rows.isEmpty = false := by
    cases rows with
    | nil => exact absurd rfl h
    | cons a l => rfl
  refine ⟨?_, ?_, ?_, ?_, fun boards => by simp [runBoards]⟩ <;>
    simp [processBoard, hie]

/-- C7 witness at a non-empty row list. -/
theorem upload_failure_soft_witness :
    (processBoard (some [scenarioRow1]) UploadOutcome.err).csvWritten = true ∧
    (processBoard (some [scenarioRow1]) UploadOutcome.err).uploadFailureLogged = true ∧
    (processBoard (some [scenarioRow1]) UploadOutcome.err).fileDeleted = true ∧
    (processBoard (some [scenarioRow1]) UploadOutcome.err).proceeded = true :=
  ⟨(upload_failure_soft [scenarioRow1] (by simp)).1,
   (upload_failure_soft [scenarioRow1] (by simp)).2.1,
   (upload_failure_soft [scenarioRow1] (by simp)).2.2.1,
   (upload_failure_soft [scenarioRow1] (by simp)).2.2.2.1⟩

/-- C8: sanitization removes every occurrence of each character of the
illegal set, is the identity on a name containing none of them, and is
idempotent. -/
theorem sanitize_removes_illegal (s : String) :
    (∀ c, c ∈ illegalChars → c ∉ (sanitize s).data) ∧
    ((∀ c ∈ s.data, c ∉ illegalChars) → sanitize s = s) ∧
    sanitize (sanitize s) = sanitize s := by
  refine ⟨?_, ?_, ?_⟩
  · intro c hc hmem
    have h2 : c ∈ List.filter (fun c => decide (c ∉ illegalChars)) s.data := hmem
    exact of_decide_eq_true (List.mem_filter.1 h2).2 hc
  · intro h
    have heq : List.filter (fun c => decide (c ∉ illegalChars)) s.data = s.data :=
      List.filter_eq_self.mpr (fun a ha => decide_eq_true (h a ha))
    simp only [sanitize]
    rw [heq]
  · have h3 : List.filter (fun c => decide (c ∉ illegalChars))
        (List.filter (fun c => decide (c ∉ illegalChars)) s.data)
        = List.filter (fun c => decide (c ∉ illegalChars)) s.data :=
      List.filter_eq_self.mpr (fun a ha => (List.mem_filter.1 ha).2)
    exact congrArg String.mk h3

/-- C8 witness at concrete names. -/
theorem sanitize_removes_illegal_witness :
    '/' ∉ (sanitize "a/b").data ∧ sanitize "ab" = "ab" ∧
    sanitize (sanitize "a/b") = sanitize "a/b" :=
  ⟨(sanitize_removes_illegal "a/b").1 '/' (by decide),
   (sanitize_removes_illegal "ab").2.1 (by decide),
   (sanitize_removes_illegal "a/b").2.2⟩

/-- C9: a column value whose id is absent from the column map resolves to
its raw id (the lookup is total and never fails), and — provided no later
column value of the same item resolves to that same label — the finished
row carries the value's text under the raw id, which is among the row's
keys. -/
theorem missing_column_id_fallback (m : Dict) (item : Item) (cv : ColVal)
    (l₁ l₂ : List ColVal) (hsplit : item.column_values = l₁ ++ cv :: l₂)
    (habs : dictGet m cv.id = none)
    (hlast : ∀ cv' ∈ l₂, mapGet m cv'.id ≠ cv.id) :
    mapGet m cv.id = cv.id ∧
    dictGet (flattenItem m item) cv.id = some cv.text ∧
    cv.id ∈ dictKeys (flattenItem m item) := by
  have hmg : mapGet m cv.id = cv.id := by rw [mapGet, habs]; rfl
  have hget : dictGet (flattenItem m item) cv.id = some cv.text := by
    rw [flattenItem, hsplit]
    exact foldl_insert_get_last m l₁ cv l₂ _ cv.id hmg hlast
  exact ⟨hmg, hget, mem_dictKeys_of_dictGet_some _ _ _ hget⟩

/-- C9 witness: an item whose only column value has an unmapped id. -/
theorem missing_column_id_fallback_witness :
    mapGet (buildColumnMap scenarioCols) "unknownCol" = "unknownCol" ∧
    dictGet (flattenItem (buildColumnMap scenarioCols) missingColItem) "unknownCol"
      = some "val" ∧
    "unknownCol" ∈ dictKeys (flattenItem (buildColumnMap scenarioCols) missingColItem) :=
  missing_column_id_fallback (buildColumnMap scenarioCols) missingColItem
    ⟨"unknownCol", "val"⟩ [] [] rfl rfl
    (fun cv' h' => absurd h' (List.not_mem_nil cv'))

/-- C10: each row keeps at most one cell per resolved title (its keys are
distinct), and when several column values of an item resolve to the same
label — including the seed labels "Item ID" and "Item Name" — the last
one silently overwrites the earlier entries. -/
theorem duplicate_title_overwrite (m : Dict) (item : Item) :
    (dictKeys (flattenItem m item)).Nodup ∧
    (∀ (l₁ l₂ : List ColVal) (cv : ColVal),
      item.column_values = l₁ ++ cv :: l₂ →
      (∀ cv' ∈ l₂, mapGet m cv'.id ≠ mapGet m cv.id) →
      dictGet (flattenItem m item) (mapGet m cv.id) = some cv.text) := by
  constructor
  · rw [flattenItem]
    refine nodup_dictKeys_foldl_insert m item.column_values _ ?_
    have hkeys : dictKeys [("Item ID", item.id), ("Item Name", item.name)]
        = ["Item ID", "Item Name"] := rfl
    rw [hkeys]
    decide
  · intro l₁ l₂ cv hsplit hlast
    rw [flattenItem, hsplit]
    exact foldl_insert_get_last m l₁ cv l₂ _ (mapGet m cv.id) rfl hlast

/-- C10 witness: two column ids mapping to the same title "T" — the later
value wins and the row's keys stay distinct. -/
theorem duplicate_title_overwrite_witness :
    (dictKeys (flattenItem dupTitleMap dupTitleItem)).Nodup ∧
    dictGet (flattenItem dupTitleMap dupTitleItem) (mapGet dupTitleMap "b")
      = some "2" :=
  ⟨(duplicate_title_overwrite dupTitleMap dupTitleItem).1,
   (duplicate_title_overwrite dupTitleMap dupTitleItem).2
     [⟨"a", "1"⟩] [] ⟨"b", "2"⟩ rfl
     (fun cv' h' => absurd h' (List.not_mem_nil cv'))⟩

end Backup
